import Mathlib

/-!
Shallow embedding of `netzob/Common/Models/Vocabulary/AbstractField.py`:
the field-tree data model (node identity, parent/child composition, the
three pipeline sequences, symbol resolution and the memento contract).

A Python `AbstractField` object is modelled by the record `Node`; the
object graph reachable through `parent` / `children` references is
modelled by a `State : NodeId → Node` assigning a record to every object
identity.  Properties become record fields, property setters become
functions `Node → _ → Node` (or `State → _ → State` when they navigate
the graph), and exceptions become explicit error values.
-/

namespace Netzob

/-- Modelled from the spec: the concrete variants of the abstract Field
Node (Symbol = tree root variant, Field, Layer).  The `Symbol` class is
defined outside the source file under analysis; `getSymbol` only tests
`isinstance(self, Symbol)`, which this tag decides. -/
inductive Variant
  | symbol
  | field
  | layer
deriving DecidableEq

/-- Object identity of a Python `AbstractField` instance. -/
abbrev NodeId := Nat

/-- The per-object state of an `AbstractField`, one field per private
attribute assigned in `__init__`.  `regex` values (class `NetzobRegex`),
pipeline functions and the `_variable` attribute are opaque handles
(`Nat`); `children` and `parent` hold object identities. -/
structure Node where
  id : Option Nat
  name : Option String
  regex : Option Nat
  layer : Bool
  description : String
  children : List NodeId
  parent : Option NodeId
  encodingFunctions : List Nat
  visualizationFunctions : List Nat
  transformationFunctions : List Nat
  varHandle : Option Nat
  variant : Variant
deriving DecidableEq

/-- `AbstractField.__init__(name=None, regex=None, layer=False)`:
`id` is a freshly generated UUID (modelled as the `fresh` parameter),
`description` is `""`, `children` and the three pipeline sequences are
empty, `parent` and `_variable` are `None`. -/
def mkField (fresh : Nat) (name : Option String) (regex : Option Nat)
    (layer : Bool) (variant : Variant) : Node :=
  { id := some fresh
    name := name
    regex := regex
    layer := layer
    description := ""
    children := []
    parent := none
    encodingFunctions := []
    visualizationFunctions := []
    transformationFunctions := []
    varHandle := none
    variant := variant }

/-- Modelled from the spec: `TypedList.pop()` with no argument removes
the last element (Python list semantics; `TypedList` lives in
`netzob/Common/Utils/TypedList.py`, outside the source under analysis;
the spec describes the clear operations as removing "all elements of the
respective sequence one at a time until empty").  `popAll` is the loop
`while len(l) > 0: l.pop()`. -/
def popAll {α : Type} : List α → List α
  | [] => []
  | x :: xs => popAll (x :: xs).dropLast
termination_by l => l.length
decreasing_by
  simp [List.length_dropLast]

/-- `AbstractField.clearChildren`: pop the children one at a time until
the sequence is empty.  It does not touch any parent back-reference. -/
def Node.clearChildren (n : Node) : Node :=
  { n with children := popAll n.children }

/-- `AbstractField.clearEncodingFunctions`. -/
def Node.clearEncodingFunctions (n : Node) : Node :=
  { n with encodingFunctions := popAll n.encodingFunctions }

/-- `AbstractField.clearVisualizationFunctions`. -/
def Node.clearVisualizationFunctions (n : Node) : Node :=
  { n with visualizationFunctions := popAll n.visualizationFunctions }

/-- `AbstractField.clearTransformationFunctions`. -/
def Node.clearTransformationFunctions (n : Node) : Node :=
  { n with transformationFunctions := popAll n.transformationFunctions }

/-- `encodingFunctions` setter: `self.clearEncodingFunctions()` then
`self.encodingFunctions.extend(input)` (`TypedList.extend` appends the
members in order, modelled from the spec: "set clears the existing
sequence then appends every element of the input in order"). -/
def Node.setEncodingFunctions (n : Node) (xs : List Nat) : Node :=
  let m := n.clearEncodingFunctions
  { m with encodingFunctions := m.encodingFunctions ++ xs }

/-- `visualizationFunctions` setter: clear then extend. -/
def Node.setVisualizationFunctions (n : Node) (xs : List Nat) : Node :=
  let m := n.clearVisualizationFunctions
  { m with visualizationFunctions := m.visualizationFunctions ++ xs }

/-- `transformationFunctions` setter: clear then extend. -/
def Node.setTransformationFunctions (n : Node) (xs : List Nat) : Node :=
  let m := n.clearTransformationFunctions
  { m with transformationFunctions := m.transformationFunctions ++ xs }

/-- `AbstractField.hasParent`: `self.__parent is not None`. -/
def Node.hasParent (n : Node) : Bool :=
  n.parent.isSome

/-- `layer` setter.  The `@typeCheck(bool)` decorator (modelled from the
spec: the decorator source is outside the file under analysis; it lets
`None` through unexamined, as the body's own `None` test shows) accepts
`None` or a `bool`; the body replaces `None` by `False` before storing. -/
def Node.setLayer (n : Node) (layer : Option Bool) : Node :=
  match layer with
  | none => { n with layer := false }
  | some b => { n with layer := b }

/-- Value offered to the `id` setter: `None`, a UUID, or a value of the
wrong type. -/
inductive IdInput
  | nullV
  | uuidV (k : Nat)
  | badV
deriving DecidableEq

/-- The exception raised by a rejected property assignment:
`TypeError` from the `@typeCheck` decorator, `ValueError` from the
setter body. -/
inductive SetErr
  | typeError
  | valueError
deriving DecidableEq

/-- `id` setter.  `@typeCheck(uuid.UUID)` (modelled from the spec:
decorator source outside the file under analysis) raises `TypeError` on
a non-`None` non-UUID value and lets `None` through; the body raises
`ValueError("id is Mandatory.")` on `None` and otherwise stores the
value.  The returned `Node` is the post-state: on an exception the
assignment did not happen and the state is unchanged. -/
def Node.setId (f : Node) (v : IdInput) : Node × Option SetErr :=
  match v with
  | .badV => (f, some .typeError)
  | .nullV => (f, some .valueError)
  | .uuidV k => ({ f with id := some k }, none)

/-- The stored `id` after `setId`: unchanged unless a UUID was accepted. -/
def idAfter (old : Option Nat) : IdInput → Option Nat
  | .uuidV k => some k
  | _ => old

/-- Result of `getCells`: a matrix, or an `AlignmentException`. -/
inductive CellsResult
  | ok (m : List (List String))
  | alignmentException
deriving DecidableEq

/-- Result of `getValues`: a value list, or an `AlignmentException`. -/
inductive ValuesResult
  | ok (v : List String)
  | alignmentException
deriving DecidableEq

/-- `AbstractField.getCells(encoded=False, styled=False,
transposed=False)`: the base-class body is `return [[]]`, whatever the
flags. -/
def Node.getCells (_f : Node) (_encoded _styled _transposed : Bool) : CellsResult :=
  .ok [[]]

/-- `AbstractField.getValues(encoded=False, styled=False)`: the
base-class body is `return []`, whatever the flags. -/
def Node.getValues (_f : Node) (_encoded _styled : Bool) : ValuesResult :=
  .ok []

/-- Number of rows of a `getCells` result (0 on an exception). -/
def cellsRowCount : CellsResult → Nat
  | .ok m => m.length
  | .alignmentException => 0

/-- `AbstractField.storeInMemento`: the base-class body is `pass` — it
returns `None` and leaves the node untouched. -/
def Node.storeInMemento (f : Node) : Node × Option Nat :=
  (f, none)

/-- `AbstractField.restoreFromMemento(memento)`: the base-class body is
`pass` — the node is untouched whatever the snapshot. -/
def Node.restoreFromMemento (f : Node) (_memento : Nat) : Node :=
  f

/-- The object graph: the state of every `AbstractField` instance,
indexed by object identity. -/
def State := NodeId → Node

/-- Update one object of the graph in place. -/
def updateNode (s : State) (i : NodeId) (f : Node → Node) : State :=
  fun j => if j = i then f (s j) else s j

/-- `clearChildren` on object `p` of the graph: only `p`'s own
`children` list is popped; no other object, and no `parent`
back-reference, is touched. -/
def clearChildrenS (s : State) (p : NodeId) : State :=
  updateNode s p Node.clearChildren

/-- `children` setter on object `p`: `self.clearChildren()` then
`self.children.extend(children)` (`TypedList.extend` appends the
members in order, modelled from the spec as for the pipeline setters).
Neither step assigns any `parent` attribute. -/
def setChildrenS (s : State) (p : NodeId) (cs : List NodeId) : State :=
  let s1 := clearChildrenS s p
  updateNode s1 p (fun n => { n with children := n.children ++ cs })

/-- `parent` setter on object `i`: the body is
`self.__parent = parent`; `@typeCheck("SELF")` only constrains the
argument's type (an `AbstractField` instance or `None`), which the
`Option NodeId` argument type already guarantees. -/
def setParentS (s : State) (i : NodeId) (q : Option NodeId) : State :=
  updateNode s i (fun n => { n with parent := q })

/-- Result of `getSymbol`: the symbol found, or a `NoSymbolException`. -/
inductive SymResult
  | symbol (n : NodeId)
  | noSymbol
deriving DecidableEq

/-- `AbstractField.getSymbol` with explicit recursion fuel: if the
current object is a `Symbol` instance, return it; else if it has a
parent, recurse on the parent; else raise `NoSymbolException`.  `none`
means the fuel ran out: the Python recursion makes more than `fuel`
calls (on a cyclic parent chain it never returns). -/
def getSymbol (s : State) : Nat → NodeId → Option SymResult
  | 0, _ => none
  | fuel + 1, i =>
    if (s i).variant = Variant.symbol then some (SymResult.symbol i)
    else
      match (s i).parent with
      | some p => getSymbol s fuel p
      | none => some SymResult.noSymbol

/-- `chainOk s n c` holds when `c` is the full parent chain of object
`n`: it starts at `n`, each element's `parent` is the next element, and
the last element has no parent.  A node has such a chain exactly when
its parent chain is finite (hence acyclic). -/
def chainOk (s : State) : NodeId → List NodeId → Bool
  | _, [] => false
  | n, [m] => m == n && (s m).parent == none
  | n, m :: m2 :: rest => m == n && (s m).parent == some m2 && chainOk s m2 (m2 :: rest)

/-- Concrete graph used to exercise the `children` setter: object 0 has
child 3 (with back-reference), object 2 has child 1 (with
back-reference). -/
def s1 : State := fun i =>
  if i = 0 then { mkField 10 none none false Variant.field with children := [3] }
  else if i = 1 then { mkField 11 none none false Variant.field with parent := some 2 }
  else if i = 2 then { mkField 12 none none false Variant.field with children := [1] }
  else { mkField 13 none none false Variant.field with parent := some 0 }

/-- Concrete graph of isolated root fields. -/
def s2 : State := fun i =>
  mkField i none none false Variant.field

/-- Concrete graph with a `Symbol` in the middle of a parent chain:
object 0 (a plain field) has parent 1, object 1 is a `Symbol` instance
with parent 2, object 2 is a plain field with no parent. -/
def s3 : State := fun i =>
  if i = 0 then { mkField 20 none none false Variant.field with parent := some 1 }
  else if i = 1 then { mkField 21 none none false Variant.symbol with parent := some 2 }
  else mkField 22 none none false Variant.field

/-- Concrete graph with a depth-5 chain 0 → 1 → 2 → 3 → 4 → 5 whose
root, object 5, is a `Symbol`. -/
def s5 : State := fun i =>
  if i = 5 then mkField 35 none none false Variant.symbol
  else if i < 5 then { mkField (30 + i) none none false Variant.field with parent := some (i + 1) }
  else mkField (30 + i) none none false Variant.field

/-- The pop-until-empty loop empties any list. -/
theorem popAll_eq_nil {α : Type} : ∀ l : List α, popAll l = []
  | [] => by simp [popAll]
  | x :: xs => by
    rw [popAll]
    exact popAll_eq_nil ((x :: xs).dropLast)
termination_by l => l.length
decreasing_by
  simp [List.length_dropLast]

/-- Claim C4: at the base-class level, for every combination of the
`encoded`, `styled` and `transposed` flags, `getValues` returns the
empty sequence and `getCells` returns a matrix of exactly one empty row
(not the empty matrix); both return normally, so neither raises
`AlignmentException`. -/
theorem getCells_getValues_default (f : Node) (encoded styled transposed : Bool) :
    f.getCells encoded styled transposed = CellsResult.ok [[]] ∧
    cellsRowCount (f.getCells encoded styled transposed) = 1 ∧
    f.getValues encoded styled = ValuesResult.ok [] :=
  ⟨rfl, rfl, rfl⟩

/-- Claim C5: assigning `None` to `id` raises `ValueError` (the field is
mandatory) and assigning a non-UUID raises `TypeError` — both
`ValidationError` kinds of the design — and in either case the stored
`id` is unchanged (the whole node is returned as it was); assigning a
UUID stores it; construction always sets a non-null `id`, and `setId`
never turns a stored id into `None` (`idAfter` keeps the old value on
failure). -/
theorem id_setter_validation (f : Node) (k fresh : Nat) (nm : Option String)
    (rg : Option Nat) (ly : Bool) (vt : Variant) (v : IdInput) :
    f.setId IdInput.nullV = (f, some SetErr.valueError) ∧
    f.setId IdInput.badV = (f, some SetErr.typeError) ∧
    f.setId (IdInput.uuidV k) = ({ f with id := some k }, none) ∧
    (f.setId v).1.id = idAfter f.id v ∧
    (mkField fresh nm rg ly vt).id = some fresh := by
  refine ⟨rfl, rfl, rfl, ?_, rfl⟩
  cases v <;> rfl

/-- Claim C6: assigning `None` to the `layer` property does not fail and
stores `False`, readable back through the getter; assigning a boolean
stores that boolean. -/
theorem layer_none_defaults_false (f : Node) (b : Bool) :
    (f.setLayer none).layer = false ∧ (f.setLayer (some b)).layer = b :=
  ⟨rfl, rfl⟩

/-- Claim C7: the `encodingFunctions` setter clears the stored sequence
and then appends the input in order, so setting `[a, b]` reads back as
`[a, b]`, setting `[]` afterwards reads back empty, and in general the
read-back equals the input. -/
theorem encodingFunctions_roundtrip (f : Node) (a b : Nat) (xs : List Nat) :
    (f.setEncodingFunctions xs).encodingFunctions = xs ∧
    (f.setEncodingFunctions [a, b]).encodingFunctions = [a, b] ∧
    ((f.setEncodingFunctions [a, b]).setEncodingFunctions []).encodingFunctions = [] ∧
    f.clearEncodingFunctions.encodingFunctions = [] := by
  simp [Node.setEncodingFunctions, Node.clearEncodingFunctions, popAll_eq_nil]

/-- Claim C9: the base-class memento pair is a no-op —
`restoreFromMemento` leaves every field of the node (id, name, regex,
layer, description, children, parent and the three pipeline sequences)
unchanged for every snapshot value, and `storeInMemento` returns `None`
without touching the node. -/
theorem memento_noop (f : Node) (m : Nat) :
    f.restoreFromMemento m = f ∧
    (f.restoreFromMemento m).id = f.id ∧
    (f.restoreFromMemento m).name = f.name ∧
    (f.restoreFromMemento m).regex = f.regex ∧
    (f.restoreFromMemento m).layer = f.layer ∧
    (f.restoreFromMemento m).description = f.description ∧
    (f.restoreFromMemento m).children = f.children ∧
    (f.restoreFromMemento m).parent = f.parent ∧
    (f.restoreFromMemento m).encodingFunctions = f.encodingFunctions ∧
    (f.restoreFromMemento m).visualizationFunctions = f.visualizationFunctions ∧
    (f.restoreFromMemento m).transformationFunctions = f.transformationFunctions ∧
    f.storeInMemento = (f, none) :=
  ⟨rfl, rfl, rfl, rfl, rfl, rfl, rfl, rfl, rfl, rfl, rfl, rfl⟩

/-- Claim C10: each pipeline setter and each pipeline clear rewrites
exactly its own sequence and nothing else — the node is the original
record with only that one sequence replaced, so the other two
sequences, `children`, `parent` and all scalar fields are unchanged. -/
theorem pipeline_setters_independent (f : Node) (xs : List Nat) :
    f.setEncodingFunctions xs = { f with encodingFunctions := xs } ∧
    f.setVisualizationFunctions xs = { f with visualizationFunctions := xs } ∧
    f.setTransformationFunctions xs = { f with transformationFunctions := xs } ∧
    f.clearEncodingFunctions = { f with encodingFunctions := [] } ∧
    f.clearVisualizationFunctions = { f with visualizationFunctions := [] } ∧
    f.clearTransformationFunctions = { f with transformationFunctions := [] } := by
  simp [Node.setEncodingFunctions, Node.setVisualizationFunctions,
    Node.setTransformationFunctions, Node.clearEncodingFunctions,
    Node.clearVisualizationFunctions, Node.clearTransformationFunctions,
    popAll_eq_nil]

/-- Claim C1 counterexample: in the graph `s1`, node 1 is a child of
node 2 (with back-reference) and node 0 has previous child 3.  After
`setChildrenS s1 0 [1]` — the children setter assigning `[1]` to node 0
— node 1's `parent` is still `some 2`, not `some 0` (the incoming child
is not re-parented), node 1 is still in node 2's children (the old
relation is not broken), and previous child 3 still has its `parent`
back-reference `some 0` (it is not cleared).  This refutes the claim as
stated. -/
theorem children_setter_counterexample :
    ((setChildrenS s1 0 [1]) 0).children = [1] ∧
    ((setChildrenS s1 0 [1]) 1).parent = some 2 ∧
    ((setChildrenS s1 0 [1]) 2).children = [1] ∧
    ((setChildrenS s1 0 [1]) 3).parent = some 0 := by
  refine ⟨?_, ?_, ?_, ?_⟩ <;>
    simp [setChildrenS, clearChildrenS, updateNode, Node.clearChildren,
      popAll_eq_nil, s1, mkField]

/-- Claim C1 (amended): the children setter replaces `p`'s children
sequence with `cs` in order and modifies no other node's children
sequence; it does not touch any `parent` back-reference — neither the
incoming children's (they are not re-parented to `p`) nor the previous
children's (they are not cleared). -/
theorem setChildren_effect (s : State) (p : NodeId) (cs : List NodeId) (m : NodeId) :
    ((setChildrenS s p cs) m).parent = (s m).parent ∧
    ((setChildrenS s p cs) m).children = (if m = p then cs else (s m).children) := by
  unfold setChildrenS clearChildrenS updateNode Node.clearChildren
  by_cases h : m = p <;> simp [h, popAll_eq_nil]

/-- Claim C2 counterexample: in `s2` node 0 has no parent; the edit
`setParentS s2 0 (some 0)` makes node 0 its own parent — hence its own
ancestor — and is applied rather than rejected: no validation happens
at mutation time. -/
theorem parent_cycle_accepted_counterexample :
    (s2 0).parent = none ∧
    ((setParentS s2 0 (some 0)) 0).parent = some 0 := by
  decide

/-- Claim C2 (amended): no acyclicity validation happens at mutation
time — the parent setter stores any offered parent unconditionally
(first conjunct), and on the resulting cyclic chain `getSymbol` never
returns, whatever recursion budget it is given (second conjunct). -/
theorem setParent_no_validation :
    (∀ (s : State) (i : NodeId) (q : Option NodeId),
      ((setParentS s i q) i).parent = q) ∧
    (∀ (s : State) (i : NodeId) (fuel : Nat),
      (s i).variant ≠ Variant.symbol → (s i).parent = some i →
        getSymbol s fuel i = none) := by
  constructor
  · intro s i q
    simp [setParentS, updateNode]
  · intro s i fuel hv hp
    induction fuel with
    | zero => rfl
    | succ k ih => simp [getSymbol, hv, hp, ih]

/-- Witness for the amended claim C2: the self-parent edit on `s2` is
applied, and `getSymbol` on the resulting cyclic node exhausts a
concrete budget of 7 recursive calls without returning. -/
theorem setParent_no_validation_witness :
    ((setParentS s2 0 (some 0)) 0).parent = some 0 ∧
    getSymbol (setParentS s2 0 (some 0)) 7 0 = none := by
  constructor
  · exact setParent_no_validation.1 s2 0 (some 0)
  · exact setParent_no_validation.2 (setParentS s2 0 (some 0)) 0 7 (by decide) (by decide)

/-- Claim C8: the parent setter on node `n` changes only `n`'s `parent`
back-reference.  Every node's children sequence is untouched (so the
previous parent's children still contain `n`), every other field of
every node is unchanged, and only `n`'s `parent` takes the new value. -/
theorem setParent_frame (s : State) (n : NodeId) (q : Option NodeId) (m : NodeId) :
    ((setParentS s n q) m).children = (s m).children ∧
    ((setParentS s n q) m).id = (s m).id ∧
    ((setParentS s n q) m).name = (s m).name ∧
    ((setParentS s n q) m).regex = (s m).regex ∧
    ((setParentS s n q) m).layer = (s m).layer ∧
    ((setParentS s n q) m).description = (s m).description ∧
    ((setParentS s n q) m).encodingFunctions = (s m).encodingFunctions ∧
    ((setParentS s n q) m).visualizationFunctions = (s m).visualizationFunctions ∧
    ((setParentS s n q) m).transformationFunctions = (s m).transformationFunctions ∧
    ((setParentS s n q) m).varHandle = (s m).varHandle ∧
    ((setParentS s n q) m).variant = (s m).variant ∧
    ((setParentS s n q) m).parent = (if m = n then q else (s m).parent) := by
  unfold setParentS updateNode
  by_cases h : m = n <;> simp [h]

/-- Claim C3 counterexample: in `s3` the parent chain of node 0 is
`[0, 1, 2]` — finite and acyclic — and it ends at node 2, a rootless
non-Symbol node, so the claim requires `getSymbol` to raise
`NoSymbolException`; instead `getSymbol` returns the mid-chain Symbol
node 1 (which is also not the chain's root). -/
theorem getSymbol_claim_counterexample :
    chainOk s3 0 [0, 1, 2] = true ∧
    (s3 2).variant = Variant.field ∧
    (s3 2).parent = none ∧
    getSymbol s3 3 0 = some (SymResult.symbol 1) := by
  decide

/-- Claim C3 (amended): for every node whose parent chain is finite and
acyclic, `getSymbol` (run with fuel covering the chain) returns the
first Symbol-variant node on the chain — the node itself at depth 0 —
and raises `NoSymbolException` if and only if no node of the chain is a
Symbol.  When the root is the only Symbol that can occur on the chain,
this is: return the root when it is a Symbol, raise otherwise. -/
theorem getSymbol_first_symbol_on_chain :
    ∀ (c : List NodeId) (s : State) (n : NodeId), chainOk s n c = true →
      getSymbol s c.length n =
        some ((c.find? (fun m => (s m).variant == Variant.symbol)).elim
          SymResult.noSymbol SymResult.symbol)
  | [], s, n, h => by simp [chainOk] at h
  | [m], s, n, h => by
    simp [chainOk] at h
    obtain ⟨h1, h2⟩ := h
    subst h1
    have hstep : getSymbol s ([m] : List NodeId).length m =
        if (s m).variant = Variant.symbol then some (SymResult.symbol m)
        else
          match (s m).parent with
          | some p => getSymbol s 0 p
          | none => some SymResult.noSymbol := rfl
    rw [hstep, h2]
    by_cases hv : (s m).variant = Variant.symbol
    · have hvb : ((s m).variant == Variant.symbol) = true := by simp [hv]
      have hf : List.find? (fun j => (s j).variant == Variant.symbol) [m] = some m :=
        List.find?_cons_of_pos _ hvb
      rw [if_pos hv, hf]
      rfl
    · have hvb : ¬((s m).variant == Variant.symbol) = true := by simp [hv]
      have hf : List.find? (fun j => (s j).variant == Variant.symbol) [m] =
          List.find? (fun j => (s j).variant == Variant.symbol) [] :=
        List.find?_cons_of_neg _ hvb
      rw [if_neg hv, hf]
      rfl
  | m :: m2 :: rest, s, n, h => by
    simp [chainOk] at h
    obtain ⟨⟨h1, h2⟩, h3⟩ := h
    subst h1
    have hstep : getSymbol s ((m :: m2 :: rest) : List NodeId).length m =
        if (s m).variant = Variant.symbol then some (SymResult.symbol m)
        else
          match (s m).parent with
          | some p => getSymbol s ((m2 :: rest) : List NodeId).length p
          | none => some SymResult.noSymbol := rfl
    rw [hstep, h2]
    by_cases hv : (s m).variant = Variant.symbol
    · have hvb : ((s m).variant == Variant.symbol) = true := by simp [hv]
      have hf : List.find? (fun j => (s j).variant == Variant.symbol)
          (m :: m2 :: rest) = some m :=
        List.find?_cons_of_pos _ hvb
      rw [if_pos hv, hf]
      rfl
    · have hvb : ¬((s m).variant == Variant.symbol) = true := by simp [hv]
      have hf : List.find? (fun j => (s j).variant == Variant.symbol)
          (m :: m2 :: rest) =
          List.find? (fun j => (s j).variant == Variant.symbol) (m2 :: rest) :=
        List.find?_cons_of_neg _ hvb
      rw [if_neg hv, hf]
      show getSymbol s ((m2 :: rest) : List NodeId).length m2 = _
      exact getSymbol_first_symbol_on_chain (m2 :: rest) s m2 h3

/-- Witness for the amended claim C3: on the concrete depth-5 chain
`[0, 1, 2, 3, 4, 5]` of `s5`, whose only Symbol is the root 5,
`getSymbol` returns that root. -/
theorem getSymbol_chain_witness :
    chainOk s5 0 [0, 1, 2, 3, 4, 5] = true ∧
    getSymbol s5 6 0 = some (SymResult.symbol 5) := by
  have h := getSymbol_first_symbol_on_chain [0, 1, 2, 3, 4, 5] s5 0 (by decide)
  exact ⟨by decide, h.trans (by decide)⟩

end Netzob
